import Mathlib

/-!
Verification of the Cruxupdater port-update pipeline.

Shallow embedding of `cruxupdater.py` (and the shared helpers of
`updatecheck.py`): the diff-output parser, the port locator, the checksum
reconciler with its download escalation, the artifact selection after a
build, and the orchestrator's filtering and summary logic.  External
processes are modelled by an environment assigning a result (exit code and
captured standard error) to each invocation in order; the functions return
the invoked-action trace alongside their result so that invocation counts
can be stated.
-/

namespace Cruxupdater

/-- A parsed row of the diff output: `(port_name, installed_version,
available_version)`, the tuple built at cruxupdater.py:48. -/
structure PortRecord where
  port_name : String
  installed_version : String
  available_version : String
deriving DecidableEq

/-- Python `line.split()`: split on whitespace runs, dropping empty tokens. -/
def pySplitWhitespace (s : String) : List String :=
  (s.split (fun c => c.isWhitespace)).filter (fun t => t != "")

/-- Python `s.startswith(pre)`: code-point-wise comparison, modelled on the
character lists. -/
def pyStartsWith (s pre : String) : Bool :=
  pre.toList.isPrefixOf s.toList

/-- Python `s.endswith(suf)`: code-point-wise comparison, modelled on the
character lists. -/
def pyEndsWith (s suf : String) : Bool :=
  suf.toList.isSuffixOf s.toList

/-- The header/separator test of cruxupdater.py:41:
`line.startswith(('Port', 'Differences', '====', '---'))`. -/
def isHeaderLine (line : String) : Bool :=
  pyStartsWith line "Port" || pyStartsWith line "Differences" ||
    pyStartsWith line "====" || pyStartsWith line "---"

/-- One iteration of the parsing loop of cruxupdater.py:39-49: a qualifying
line appends one record built from its first three tokens. -/
def parseStep (acc : List PortRecord) (line : String) : List PortRecord :=
  if line.trim != "" && !(isHeaderLine line) then
    match pySplitWhitespace line with
    | a :: b :: c :: _ => acc ++ [⟨a, b, c⟩]
    | _ => acc
  else acc

/-- `get_outdated_ports` of cruxupdater.py:26-51 (identical parsing in
updatecheck.py:31-51), applied to the raw stdout of the diff query: strip,
split into lines, and run the accumulating loop. -/
def get_outdated_ports (raw_output : String) : List PortRecord :=
  ((raw_output.trim).splitOn "\n").foldl parseStep []

/-- The per-line contract as the spec states it: a line that is non-blank,
matches no header/separator lead-in, and splits into at least three
whitespace-separated tokens yields exactly one record with fields equal to
tokens 0, 1 and 2; every other line yields none. -/
def parseLineSpec (line : String) : Option PortRecord :=
  if line.trim ≠ "" ∧ isHeaderLine line = false ∧
      3 ≤ (pySplitWhitespace line).length then
    match pySplitWhitespace line with
    | a :: b :: c :: _ => some ⟨a, b, c⟩
    | _ => none
  else none

/-- `os.path.join(base, name)` for the shapes used here: an absolute `name`
discards `base`, otherwise the two are joined with a slash. -/
def joinPath (base name : String) : String :=
  if pyStartsWith name "/" then name else base ++ "/" ++ name

/-- The fixed category-root order of cruxupdater.py:54. -/
def possible_dirs : List String :=
  ["/usr/ports/core", "/usr/ports/opt", "/usr/ports/contrib",
   "/usr/ports/xfce", "/usr/ports/xorg", "/usr/ports/xfce4"]

/-- The fixed category-root order of updatecheck.py:54 (no `xfce4`). -/
def possible_dirs_check : List String :=
  ["/usr/ports/core", "/usr/ports/opt", "/usr/ports/contrib",
   "/usr/ports/xfce", "/usr/ports/xorg"]

/-- The probe loop of `find_port_directory`: return the first `root/name`
that is a directory, where `isdir` models `os.path.isdir`. -/
def findDirIn (isdir : String → Bool) (port_name : String) :
    List String → Option String
  | [] => none
  | base :: rest =>
    if isdir (joinPath base port_name) then some (joinPath base port_name)
    else findDirIn isdir port_name rest

/-- `find_port_directory` of cruxupdater.py:53-61. -/
def find_port_directory (isdir : String → Bool) (port_name : String) :
    Option String :=
  findDirIn isdir port_name possible_dirs

/-- `find_port_directory` of updatecheck.py:53-59. -/
def find_port_directory_check (isdir : String → Bool) (port_name : String) :
    Option String :=
  findDirIn isdir port_name possible_dirs_check

/-- Result of one external process invocation: its exit code and the
captured standard-error text (empty when the call is not captured). -/
structure ProcResult where
  returncode : Int
  stderr : String
deriving DecidableEq

/-- The external actions the pipeline can invoke. -/
inductive Action where
  | pkgmkUm
  | pkgmkD
  | pkgmkBuild
  | pkgadd
deriving DecidableEq

/-- Environment for a run: the result of the n-th process invocation,
counted across the whole call. -/
structure Env where
  run : Nat → ProcResult

/-- Python `needle in hay` on strings, as a scan over the character list. -/
def infixCheck (needle : List Char) : List Char → Bool
  | [] => needle.isEmpty
  | c :: rest => needle.isPrefixOf (c :: rest) || infixCheck needle rest

/-- The diagnostic test of cruxupdater.py:71:
`"Source file" in stderr and "not found" in stderr`. -/
def sourceMissing (stderr : String) : Bool :=
  infixCheck "Source file".toList stderr.toList &&
    infixCheck "not found".toList stderr.toList

/-- `update_pkgfile_with_new_md5` of cruxupdater.py:63-91, returning the
boolean result, the invocation counter after the call, and the trace of
actions invoked.  The first `pkgmk -um` escalates on the source-missing
diagnostic (its exit code is never inspected); `pkgmk -d` then a retried
`pkgmk -um` follow, each checked by exit code; any other first outcome
falls through to success. -/
def update_pkgfile_with_new_md5 (env : Env) (k : Nat) :
    Bool × Nat × List Action :=
  let md5sum_result := env.run k
  if sourceMissing md5sum_result.stderr then
    let download_result := env.run (k + 1)
    if download_result.returncode = 0 then
      let retry_result := env.run (k + 2)
      if retry_result.returncode ≠ 0 then
        (false, k + 3, [Action.pkgmkUm, Action.pkgmkD, Action.pkgmkUm])
      else
        (true, k + 3, [Action.pkgmkUm, Action.pkgmkD, Action.pkgmkUm])
    else
      (false, k + 2, [Action.pkgmkUm, Action.pkgmkD])
  else
    (true, k + 1, [Action.pkgmkUm])

/-- `check_and_download_source` of cruxupdater.py:93-105: a first
`pkgmk -d`; on failure, re-enter the reconcile escalation, and only when
that succeeds attempt one further `pkgmk -d`. -/
def check_and_download_source (env : Env) (k : Nat) :
    Bool × Nat × List Action :=
  let result := env.run k
  if result.returncode ≠ 0 then
    match update_pkgfile_with_new_md5 env (k + 1) with
    | (false, j, tr) => (false, j, Action.pkgmkD :: tr)
    | (true, j, tr) =>
      let result2 := env.run j
      if result2.returncode ≠ 0 then
        (false, j + 1, Action.pkgmkD :: (tr ++ [Action.pkgmkD]))
      else
        (true, j + 1, Action.pkgmkD :: (tr ++ [Action.pkgmkD]))
  else
    (true, k + 1, [Action.pkgmkD])

/-- The artifact filter of cruxupdater.py:133 and 135: name starts with
`<port_name>#` and ends with `.pkg.tar.gz`. -/
def artifactMatch (port_name f : String) : Bool :=
  pyStartsWith f (port_name ++ "#") && pyEndsWith f ".pkg.tar.gz"

/-- The candidate enumeration of cruxupdater.py:130-135: filter the `pkg`
subdirectory listing when that directory exists; when that yields nothing,
filter the package directory listing with the same rule. -/
def pkg_files (port_name : String) (pkgDirExists : Bool)
    (pkgDirListing portDirListing : List String) : List String :=
  let fromPkg :=
    if pkgDirExists then pkgDirListing.filter (artifactMatch port_name)
    else []
  if fromPkg.isEmpty then portDirListing.filter (artifactMatch port_name)
  else fromPkg

/-- The descending string sort of cruxupdater.py:142
(`pkg_files.sort(reverse=True)`). -/
def sortDescending (files : List String) : List String :=
  files.mergeSort (fun a b => decide (b ≤ a))

/-- The selection of cruxupdater.py:137-143: no candidate is a terminal
failure (`none`); otherwise the head of the descending sort is chosen. -/
def selected_pkg_file (port_name : String) (pkgDirExists : Bool)
    (pkgDirListing portDirListing : List String) : Option String :=
  match sortDescending
      (pkg_files port_name pkgDirExists pkgDirListing portDirListing) with
  | [] => none
  | f :: _ => some f

/-- The caller-supplied filters of `main` (cruxupdater.py:160-164):
`args.n` (absent when the flag is not given), `args.skip`, `args.list`
(absent when the flag is not given), and `args.skip_md5`.  `argparse`
parses `-n` as an int; the non-negative values the pipeline is specified
for are modelled as `Nat`. -/
structure Filters where
  n : Option Nat
  skip : List String
  only : Option (List String)
  skip_md5 : Bool

/-- The skip-list comprehension of cruxupdater.py:178. -/
def ports_after_skip (outdated : List PortRecord) (skip : List String) :
    List PortRecord :=
  outdated.filter (fun port => decide (port.port_name ∉ skip))

/-- The only-list comprehension of cruxupdater.py:181-182, applied after
the skip filter. -/
def ports_after_list (outdated : List PortRecord) (skip : List String)
    (only : Option (List String)) : List PortRecord :=
  match only with
  | none => ports_after_skip outdated skip
  | some l =>
    (ports_after_skip outdated skip).filter
      (fun port => decide (port.port_name ∈ l))

/-- `num_ports_to_update` of cruxupdater.py:185: Python truthiness makes
both an absent `-n` and `-n 0` mean the whole filtered list. -/
def num_ports_to_update (outdated : List PortRecord) (f : Filters) : Nat :=
  match f.n with
  | none => (ports_after_list outdated f.skip f.only).length
  | some n =>
    if n = 0 then (ports_after_list outdated f.skip f.only).length else n

/-- `ports_to_update` after the truncation of cruxupdater.py:186: the
records the update loop iterates over. -/
def ports_to_update (outdated : List PortRecord) (f : Filters) :
    List PortRecord :=
  (ports_after_list outdated f.skip f.only).take
    (num_ports_to_update outdated f)

/-- The loop of cruxupdater.py:190-195: the names collected in
`updated_ports`, where `attempt` models the boolean result of
`update_port` for each record. -/
def updated_port_names (loopPorts : List PortRecord)
    (attempt : PortRecord → Bool) : List String :=
  (loopPorts.filter attempt).map (fun port => port.port_name)

/-- The status classification of cruxupdater.py:199-205 for one record of
the original outdated set. -/
def port_status (f : Filters) (updated : List String) (port : PortRecord) :
    String :=
  if port.port_name ∈ f.skip then "Skipped"
  else if (match f.only with
           | some l => decide (port.port_name ∉ l)
           | none => false) then "Not in list"
  else if port.port_name ∈ updated then "Updated"
  else "Failed"

/-- The summary rows of cruxupdater.py:197-206 (header row omitted): one
`(name, status)` pair per record of the original outdated set, in order. -/
def summary_rows (outdated : List PortRecord) (f : Filters)
    (updated : List String) : List (String × String) :=
  outdated.map (fun port => (port.port_name, port_status f updated port))

/-- Trim of one recipe line: drop whitespace from both ends
(Python `line.strip()`), over the character list. -/
def trimLine (l : List Char) : List Char :=
  ((l.dropWhile Char.isWhitespace).reverse.dropWhile Char.isWhitespace).reverse

/-- Modelled from the spec: `skip_md5_check` is called at
cruxupdater.py:114 but is not defined in the sources provided; §4.3 states
that skip mode "directly edits the recipe file, removing any line whose
trimmed content begins with the checksum-manifest directive".  The recipe
is its list of lines (as character lists); the directive is a parameter. -/
def skip_md5_check (directive : List Char) (recipe : List (List Char)) :
    List (List Char) :=
  recipe.filter (fun l => !(directive.isPrefixOf (trimLine l)))

/-- The checksum phase of `update_port` (cruxupdater.py:112-117): in skip
mode the recipe is rewritten by `skip_md5_check` and no process runs; in
checked mode the recipe is untouched and `update_pkgfile_with_new_md5`
runs.  Returns the recipe after the phase, the phase result, the counter,
and the action trace. -/
def md5_phase (skip_md5 : Bool) (directive : List Char)
    (recipe : List (List Char)) (env : Env) (k : Nat) :
    List (List Char) × Bool × Nat × List Action :=
  if skip_md5 then (skip_md5_check directive recipe, true, k, [])
  else
    match update_pkgfile_with_new_md5 env k with
    | (ok, j, tr) => (recipe, ok, j, tr)

/-- Environment whose first invocation fails with an unrelated diagnostic:
`pkgmk -um` exits 1 and its stderr matches neither fixed substring. -/
def envOtherError : Env := ⟨fun _ => ⟨1, "pkgmk: some other error"⟩⟩

/-- Environment for the ensure-source counterexample: every invocation
exits 1, and the second one (the escalation's `pkgmk -um`) reports the
source-missing diagnostic, so the escalation's own download fails. -/
def envEnsureFail : Env :=
  ⟨fun i =>
    if i = 1 then ⟨1, "pkgmk: Source file foo.tar.gz not found"⟩
    else ⟨1, ""⟩⟩

/-- Environment where the escalation path succeeds end to end: the first
`pkgmk -um` reports the missing source, the download and the retried
`pkgmk -um` both exit 0. -/
def envEscalateOk : Env :=
  ⟨fun i =>
    if i = 0 then ⟨0, "Source file x.tar.gz not found"⟩ else ⟨0, ""⟩⟩

/-- Environment where the first `pkgmk -d` of the ensure-source step fails,
the re-entered reconcile sees no diagnostic (and so returns success at
once), and the second `pkgmk -d` succeeds. -/
def envRetryOk : Env :=
  ⟨fun i => if i = 0 then ⟨1, ""⟩ else ⟨0, ""⟩⟩

theorem parseStep_eq (acc : List PortRecord) (line : String) :
    parseStep acc line = acc ++ (parseLineSpec line).toList := by
  unfold parseStep parseLineSpec
  rcases h3 : pySplitWhitespace line with _ | ⟨a, _ | ⟨b, _ | ⟨c, rest⟩⟩⟩ <;>
    by_cases h1 : line.trim = "" <;>
      by_cases h2 : isHeaderLine line = true <;>
        simp [h1, h2, h3]

theorem foldl_parseStep (ls : List String) (acc : List PortRecord) :
    ls.foldl parseStep acc = acc ++ ls.filterMap parseLineSpec := by
  induction ls generalizing acc with
  | nil => simp
  | cons l ls ih =>
    rcases h : parseLineSpec l with _ | r <;>
      simp [List.foldl_cons, parseStep_eq, ih, List.filterMap_cons, h]

/-- C7: the resolver yields exactly one record per line that is non-blank,
matches no header/separator lead-in, and splits into at least three
whitespace tokens — with fields equal to tokens 0, 1 and 2 — and yields no
record for every other line, keeping input order: the parsing loop equals
the per-line contract `parseLineSpec` filter-mapped over the lines. -/
theorem get_outdated_ports_line_contract (raw_output : String) :
    get_outdated_ports raw_output =
      ((raw_output.trim).splitOn "\n").filterMap parseLineSpec := by
  unfold get_outdated_ports
  rw [foldl_parseStep]
  simp

/-- C10: supplying `-n 0` is Python-falsy at cruxupdater.py:185, so the
loop ranges over the whole filtered list, exactly as when no count limit
is given. -/
theorem main_n_zero_means_no_limit (outdated : List PortRecord)
    (skip : List String) (only : Option (List String)) (b b2 : Bool) :
    ports_to_update outdated ⟨some 0, skip, only, b⟩ =
        ports_after_list outdated skip only ∧
    ports_to_update outdated ⟨some 0, skip, only, b⟩ =
        ports_to_update outdated ⟨none, skip, only, b2⟩ := by
  constructor <;>
    simp [ports_to_update, num_ports_to_update, List.take_length]

/-- C3 counterexample: when `pkgmk -um` exits 1 with a diagnostic matching
neither fixed substring, `update_pkgfile_with_new_md5` returns success —
the first invocation's exit status is never inspected (cruxupdater.py:71
tests only the stderr text before falling through to `return True`). -/
theorem update_pkgfile_nonzero_exit_counterexample :
    (envOtherError.run 0).returncode = 1 ∧
    sourceMissing (envOtherError.run 0).stderr = false ∧
    update_pkgfile_with_new_md5 envOtherError 0 =
      (true, 1, [Action.pkgmkUm]) := by
  refine ⟨rfl, ?_, rfl⟩
  rfl

/-- C3 amended: whenever the checksum-update action's standard error does
not contain the source-missing diagnostic, reconciliation returns success
after that single invocation, regardless of its exit status; a non-zero
exit is treated as failure only on the escalation path. -/
theorem update_pkgfile_no_diagnostic_succeeds (env : Env) (k : Nat)
    (h : sourceMissing (env.run k).stderr = false) :
    update_pkgfile_with_new_md5 env k = (true, k + 1, [Action.pkgmkUm]) := by
  unfold update_pkgfile_with_new_md5
  simp [h]

theorem update_pkgfile_no_diagnostic_succeeds_witness :
    sourceMissing (envOtherError.run 5).stderr = false ∧
    update_pkgfile_with_new_md5 envOtherError 5 =
      (true, 6, [Action.pkgmkUm]) :=
  ⟨by rfl, update_pkgfile_no_diagnostic_succeeds envOtherError 5 (by rfl)⟩

/-- C4: when the checksum-update action reports the source-missing
diagnostic, exactly one `pkgmk -d` is invoked; if it exits 0 the checksum
update is retried exactly once (trace `[um, d, um]`) and the result is
that retry's exit status; if it fails, reconciliation fails with no second
checksum-update attempt (trace `[um, d]`). -/
theorem update_pkgfile_escalation (env : Env) (k : Nat)
    (h : sourceMissing (env.run k).stderr = true) :
    (update_pkgfile_with_new_md5 env k).2.2.count Action.pkgmkD = 1 ∧
    ((env.run (k + 1)).returncode = 0 →
      update_pkgfile_with_new_md5 env k =
        (decide ((env.run (k + 2)).returncode = 0), k + 3,
          [Action.pkgmkUm, Action.pkgmkD, Action.pkgmkUm])) ∧
    ((env.run (k + 1)).returncode ≠ 0 →
      update_pkgfile_with_new_md5 env k =
        (false, k + 2, [Action.pkgmkUm, Action.pkgmkD])) := by
  unfold update_pkgfile_with_new_md5
  by_cases hd : (env.run (k + 1)).returncode = 0
  · by_cases hr : (env.run (k + 2)).returncode = 0 <;>
      simp [h, hd, hr]
  · simp [h, hd]

theorem update_pkgfile_escalation_witness :
    sourceMissing (envEscalateOk.run 0).stderr = true ∧
    update_pkgfile_with_new_md5 envEscalateOk 0 =
      (true, 3, [Action.pkgmkUm, Action.pkgmkD, Action.pkgmkUm]) := by
  refine ⟨by rfl, ?_⟩
  have h := (update_pkgfile_escalation envEscalateOk 0 (by rfl)).2.1 (by rfl)
  simpa using h

/-- C6 counterexample: in `envEnsureFail` the first `pkgmk -d` fails, the
re-entered escalation itself fails (missing source, failed download), and
`check_and_download_source` fails after three invocations — the trace is
the initial download followed by the escalation's own trace with no
further download attempt, contradicting "followed by exactly one further
download attempt, and fails only if that second download attempt also
fails". -/
theorem check_and_download_counterexample :
    (envEnsureFail.run 0).returncode ≠ 0 ∧
    check_and_download_source envEnsureFail 0 =
      (false, 3, [Action.pkgmkD, Action.pkgmkUm, Action.pkgmkD]) ∧
    (check_and_download_source envEnsureFail 0).2.2 ≠
      Action.pkgmkD ::
        ((update_pkgfile_with_new_md5 envEnsureFail 1).2.2 ++
          [Action.pkgmkD]) := by
  refine ⟨by decide, by rfl, by decide⟩

/-- C6 amended: when the ensure-source step's own download fails it
re-enters the reconcile-then-retry escalation once; if the escalation
fails, the step fails immediately with no further download attempt; if the
escalation succeeds, exactly one further download attempt follows and the
step fails exactly when that attempt fails. -/
theorem check_and_download_source_escalation (env : Env) (k : Nat)
    (h : (env.run k).returncode ≠ 0) :
    ((update_pkgfile_with_new_md5 env (k + 1)).1 = false →
      check_and_download_source env k =
        (false, (update_pkgfile_with_new_md5 env (k + 1)).2.1,
          Action.pkgmkD :: (update_pkgfile_with_new_md5 env (k + 1)).2.2)) ∧
    ((update_pkgfile_with_new_md5 env (k + 1)).1 = true →
      check_and_download_source env k =
        (decide
            ((env.run
                ((update_pkgfile_with_new_md5 env (k + 1)).2.1)).returncode =
              0),
          (update_pkgfile_with_new_md5 env (k + 1)).2.1 + 1,
          Action.pkgmkD ::
            ((update_pkgfile_with_new_md5 env (k + 1)).2.2 ++
              [Action.pkgmkD]))) := by
  rcases hu : update_pkgfile_with_new_md5 env (k + 1) with ⟨ok, j, tr⟩
  cases ok <;>
    by_cases h2 : (env.run j).returncode = 0 <;>
      simp [check_and_download_source, h, hu, h2]

theorem check_and_download_source_escalation_witness :
    check_and_download_source envRetryOk 0 =
      (true, 3, [Action.pkgmkD, Action.pkgmkUm, Action.pkgmkD]) := by
  have h :=
    (check_and_download_source_escalation envRetryOk 0 (by decide)).2 (by rfl)
  simpa using h

theorem findDirIn_eq_none_iff (isdir : String → Bool) (n : String)
    (dirs : List String) :
    findDirIn isdir n dirs = none ↔
      ∀ b ∈ dirs, isdir (joinPath b n) = false := by
  induction dirs with
  | nil => simp [findDirIn]
  | cons d rest ih =>
    by_cases h : isdir (joinPath d n) = true
    · simp [findDirIn, h]
    · have hf : isdir (joinPath d n) = false := by
        cases hx : isdir (joinPath d n) with
        | true => exact absurd hx h
        | false => rfl
      simp [findDirIn, hf, ih]

theorem findDirIn_eq_some_iff (isdir : String → Bool) (n : String)
    (dirs : List String) (p : String) :
    findDirIn isdir n dirs = some p ↔
      ∃ i, ∃ hi : i < dirs.length,
        p = joinPath (dirs.get ⟨i, hi⟩) n ∧ isdir p = true ∧
        ∀ b ∈ dirs.take i, isdir (joinPath b n) = false := by
  induction dirs with
  | nil => simp [findDirIn]
  | cons d rest ih =>
    by_cases h : isdir (joinPath d n) = true
    · simp only [findDirIn, h, if_true]
      constructor
      · intro he
        have hp : joinPath d n = p := Option.some.inj he
        exact ⟨0, Nat.succ_pos _, by simpa using hp.symm,
          by rw [← hp]; exact h, by simp⟩
      · rintro ⟨i, hi, hp, hip, hb⟩
        cases i with
        | zero => simpa using hp.symm
        | succ j =>
          have hd := hb d (by simp)
          rw [h] at hd
          cases hd
    · have hf : isdir (joinPath d n) = false := by
        cases hx : isdir (joinPath d n) with
        | true => exact absurd hx h
        | false => rfl
      have hstep : findDirIn isdir n (d :: rest) = findDirIn isdir n rest := by
        simp [findDirIn, hf]
      rw [hstep, ih]
      constructor
      · rintro ⟨i, hi, hp, hip, hb⟩
        refine ⟨i + 1, Nat.succ_lt_succ hi, by simpa using hp, hip, ?_⟩
        intro b hm
        rw [List.take_succ_cons] at hm
        rcases List.mem_cons.mp hm with rfl | hmr
        · exact hf
        · exact hb b hmr
      · rintro ⟨i, hi, hp, hip, hb⟩
        cases i with
        | zero =>
          simp only [List.get] at hp
          rw [hp] at hip
          rw [hip] at hf
          cases hf
        | succ j =>
          refine ⟨j, Nat.lt_of_succ_lt_succ hi, by simpa using hp, hip, ?_⟩
          intro b hm
          exact hb b (by rw [List.take_succ_cons]; exact List.mem_cons_of_mem d hm)

/-- C8: each port locator returns the path under the first category root,
in its fixed root order, whose join with the name is a directory, and
returns `none` exactly when no root contains the name; stated for the
locator of cruxupdater.py and the one of updatecheck.py. -/
theorem find_port_directory_first_match (isdir : String → Bool)
    (port_name : String) :
    (find_port_directory isdir port_name = none ↔
      ∀ b ∈ possible_dirs, isdir (joinPath b port_name) = false) ∧
    (∀ p, find_port_directory isdir port_name = some p ↔
      ∃ i, ∃ hi : i < possible_dirs.length,
        p = joinPath (possible_dirs.get ⟨i, hi⟩) port_name ∧
        isdir p = true ∧
        ∀ b ∈ possible_dirs.take i, isdir (joinPath b port_name) = false) ∧
    (find_port_directory_check isdir port_name = none ↔
      ∀ b ∈ possible_dirs_check, isdir (joinPath b port_name) = false) ∧
    (∀ p, find_port_directory_check isdir port_name = some p ↔
      ∃ i, ∃ hi : i < possible_dirs_check.length,
        p = joinPath (possible_dirs_check.get ⟨i, hi⟩) port_name ∧
        isdir p = true ∧
        ∀ b ∈ possible_dirs_check.take i,
          isdir (joinPath b port_name) = false) :=
  ⟨findDirIn_eq_none_iff isdir port_name possible_dirs,
    fun p => findDirIn_eq_some_iff isdir port_name possible_dirs p,
    findDirIn_eq_none_iff isdir port_name possible_dirs_check,
    fun p => findDirIn_eq_some_iff isdir port_name possible_dirs_check p⟩

theorem find_port_directory_first_match_witness :
    find_port_directory (fun s => decide (s = "/usr/ports/opt/foo")) "foo" =
      some "/usr/ports/opt/foo" :=
  ((find_port_directory_first_match
        (fun s => decide (s = "/usr/ports/opt/foo")) "foo").2.1
      "/usr/ports/opt/foo").mpr
    ⟨1, by decide, by decide, by decide, by decide⟩

theorem dropWhile_eq_self_of_all {α : Type} {p : α → Bool} {l : List α}
    (h : ∀ a ∈ l, p a = false) : l.dropWhile p = l := by
  cases l with
  | nil => rfl
  | cons a t =>
    rw [List.dropWhile_cons, h a (by simp)]
    simp

theorem trimLine_append (d r : List Char) (hne : d ≠ [])
    (hw : ∀ c ∈ d, c.isWhitespace = false) :
    ∃ t, trimLine (d ++ r) = d ++ t := by
  rcases d with _ | ⟨c, d2⟩
  · exact absurd rfl hne
  have hc : c.isWhitespace = false := hw c (by simp)
  have h1 : List.dropWhile Char.isWhitespace ((c :: d2) ++ r) =
      (c :: d2) ++ r := by
    rw [List.cons_append, List.dropWhile_cons, hc]
    simp
  have h2 : List.dropWhile Char.isWhitespace (c :: d2).reverse =
      (c :: d2).reverse := by
    apply dropWhile_eq_self_of_all
    intro a ha
    exact hw a (List.mem_reverse.mp ha)
  unfold trimLine
  rw [h1, List.reverse_append, List.dropWhile_append]
  by_cases he :
      (List.dropWhile Char.isWhitespace r.reverse).isEmpty = true
  · refine ⟨[], ?_⟩
    rw [if_pos he, h2, List.reverse_reverse, List.append_nil]
  · refine ⟨(List.dropWhile Char.isWhitespace r.reverse).reverse, ?_⟩
    rw [if_neg he, List.reverse_append, List.reverse_reverse]

theorem isPrefixOf_trimLine {d l : List Char} (hne : d ≠ [])
    (hw : ∀ c ∈ d, c.isWhitespace = false)
    (h : d.isPrefixOf l = true) : d.isPrefixOf (trimLine l) = true := by
  have hiff : d.isPrefixOf l = true ↔ d <+: l := List.isPrefixOf_iff_prefix
  obtain ⟨r, rfl⟩ := hiff.mp h
  obtain ⟨t, ht⟩ := trimLine_append d r hne hw
  rw [ht]
  have hiff2 : d.isPrefixOf (d ++ t) = true ↔ d <+: d ++ t :=
    List.isPrefixOf_iff_prefix
  exact hiff2.mpr ⟨t, rfl⟩

/-- C2: in skip-checksum mode the checksum phase of `update_port` invokes
no external action at all, succeeds, and rewrites the recipe to the
ordered sublist of its lines whose trimmed content does not begin with the
directive; consequently no remaining line starts with the directive, and
when the recipe held at least one directive line, some line was removed.
(`skip_md5_check` is modelled from the spec; it is called at
cruxupdater.py:114 but not defined in the provided sources.) -/
theorem skip_md5_mode_contract (directive : List Char)
    (recipe : List (List Char)) (env : Env) (k : Nat)
    (hne : directive ≠ [])
    (hw : ∀ c ∈ directive, c.isWhitespace = false)
    (hhit : ∃ l ∈ recipe, directive.isPrefixOf (trimLine l) = true) :
    (md5_phase true directive recipe env k).2.2.2 = [] ∧
    (md5_phase true directive recipe env k).2.1 = true ∧
    (md5_phase true directive recipe env k).1.Sublist recipe ∧
    (∀ l ∈ recipe,
      (l ∈ (md5_phase true directive recipe env k).1 ↔
        directive.isPrefixOf (trimLine l) = false)) ∧
    (∀ l ∈ (md5_phase true directive recipe env k).1,
      directive.isPrefixOf l = false) ∧
    ∃ l ∈ recipe, l ∉ (md5_phase true directive recipe env k).1 := by
  have hred : (md5_phase true directive recipe env k).1 =
      skip_md5_check directive recipe := rfl
  refine ⟨rfl, rfl, ?_, ?_, ?_, ?_⟩
  · rw [hred]
    exact List.filter_sublist recipe
  · intro l hl
    rw [hred]
    unfold skip_md5_check
    constructor
    · intro hm
      have := (List.mem_filter.mp hm).2
      simpa using this
    · intro hf
      exact List.mem_filter.mpr ⟨hl, by simpa using hf⟩
  · intro l hl
    rw [hred] at hl
    have hfl := (List.mem_filter.mp hl).2
    have htr : directive.isPrefixOf (trimLine l) = false := by
      simpa using hfl
    by_contra hcon
    have hlt : directive.isPrefixOf l = true := by
      cases hp : directive.isPrefixOf l with
      | false => exact absurd hp hcon
      | true => rfl
    have := isPrefixOf_trimLine hne hw hlt
    rw [htr] at this
    cases this
  · obtain ⟨l, hl, hpre⟩ := hhit
    refine ⟨l, hl, ?_⟩
    rw [hred]
    intro hm
    have := (List.mem_filter.mp hm).2
    rw [hpre] at this
    cases this

/-- The directive and recipe used to witness the skip-checksum contract. -/
def directiveW : List Char := "md5sum".toList

/-- A three-line recipe whose middle line carries the directive. -/
def recipeW : List (List Char) :=
  ["# Pkgfile".toList, "  md5sum=abc".toList, "source=(x)".toList]

theorem skip_md5_mode_contract_witness :
    (md5_phase true directiveW recipeW envOtherError 0).2.2.2 = [] ∧
    ∀ l ∈ (md5_phase true directiveW recipeW envOtherError 0).1,
      directiveW.isPrefixOf l = false := by
  have h := skip_md5_mode_contract directiveW recipeW envOtherError 0
    (by decide) (by decide) (by decide)
  exact ⟨h.1, h.2.2.2.2.1⟩

theorem sortDescending_perm (files : List String) :
    (sortDescending files).Perm files :=
  List.mergeSort_perm files _

theorem sortDescending_pairwise (files : List String) :
    (sortDescending files).Pairwise (fun a b => decide (b ≤ a) = true) := by
  unfold sortDescending
  exact @List.sorted_mergeSort String (fun a b => decide (b ≤ a))
    (fun a b c h1 h2 =>
      decide_eq_true (le_trans (of_decide_eq_true h2) (of_decide_eq_true h1)))
    (fun a b => by rcases le_total b a with h | h <;> simp [h])
    files

theorem selected_pkg_file_eq_none (port_name : String) (e : Bool)
    (pl tl : List String) (h : pkg_files port_name e pl tl = []) :
    selected_pkg_file port_name e pl tl = none := by
  have hs : sortDescending (pkg_files port_name e pl tl) = [] := by
    rw [h]
    exact (sortDescending_perm []).eq_nil
  unfold selected_pkg_file
  rw [hs]

theorem selected_pkg_file_spec (port_name : String) (e : Bool)
    (pl tl : List String) (h : pkg_files port_name e pl tl ≠ []) :
    ∃ f, selected_pkg_file port_name e pl tl = some f ∧
      f ∈ pkg_files port_name e pl tl ∧
      ∀ g ∈ pkg_files port_name e pl tl, g ≤ f := by
  have hp := sortDescending_perm (pkg_files port_name e pl tl)
  rcases hs : sortDescending (pkg_files port_name e pl tl) with _ | ⟨a, rest⟩
  · rw [hs] at hp
    exact absurd hp.symm.eq_nil h
  · rw [hs] at hp
    refine ⟨a, ?_, ?_, ?_⟩
    · unfold selected_pkg_file
      rw [hs]
    · exact hp.mem_iff.mp (by simp)
    · intro g hg
      have hg2 : g ∈ a :: rest := hp.mem_iff.mpr hg
      rcases List.mem_cons.mp hg2 with rfl | hgr
      · exact le_refl g
      · have hpw := sortDescending_pairwise (pkg_files port_name e pl tl)
        rw [hs] at hpw
        exact of_decide_eq_true ((List.pairwise_cons.mp hpw).1 g hgr)

theorem selected_pkg_file_mem (port_name : String) (e : Bool)
    (pl tl : List String) (f : String)
    (h : selected_pkg_file port_name e pl tl = some f) :
    f ∈ pkg_files port_name e pl tl := by
  have hp := sortDescending_perm (pkg_files port_name e pl tl)
  rcases hs : sortDescending (pkg_files port_name e pl tl) with _ | ⟨a, rest⟩
  · unfold selected_pkg_file at h
    rw [hs] at h
    cases h
  · unfold selected_pkg_file at h
    rw [hs] at h
    have ha : a = f := Option.some.inj h
    rw [hs] at hp
    rw [← ha]
    exact hp.mem_iff.mp (by simp)

theorem pkg_files_match (port_name : String) (e : Bool)
    (pl tl : List String) :
    ∀ f ∈ pkg_files port_name e pl tl, artifactMatch port_name f = true := by
  intro f hf
  unfold pkg_files at hf
  cases e with
  | false =>
    simp only [Bool.false_eq_true, if_false, List.isEmpty_nil, if_true] at hf
    exact (List.mem_filter.mp hf).2
  | true =>
    simp only [if_true] at hf
    by_cases hemp : (pl.filter (artifactMatch port_name)).isEmpty = true
    · rw [if_pos hemp] at hf
      exact (List.mem_filter.mp hf).2
    · rw [if_neg hemp] at hf
      exact (List.mem_filter.mp hf).2

/-- C5: after a successful build, candidates come from the `pkg`
subdirectory filtered by the `<name>#` rule; the package directory is
searched with the same rule only when that yields nothing; an empty
candidate set selects nothing (terminal failure); and a non-empty one
selects a candidate that is lexicographically greatest among all
candidates, the one handed to the install command. -/
theorem update_port_artifact_selection (port_name : String)
    (pkgDirExists : Bool) (pkgDirListing portDirListing : List String) :
    (pkgDirExists = true →
      pkgDirListing.filter (artifactMatch port_name) ≠ [] →
      pkg_files port_name pkgDirExists pkgDirListing portDirListing =
        pkgDirListing.filter (artifactMatch port_name)) ∧
    ((pkgDirExists = false ∨
        pkgDirListing.filter (artifactMatch port_name) = []) →
      pkg_files port_name pkgDirExists pkgDirListing portDirListing =
        portDirListing.filter (artifactMatch port_name)) ∧
    (pkg_files port_name pkgDirExists pkgDirListing portDirListing = [] →
      selected_pkg_file port_name pkgDirExists pkgDirListing portDirListing =
        none) ∧
    (pkg_files port_name pkgDirExists pkgDirListing portDirListing ≠ [] →
      ∃ f,
        selected_pkg_file port_name pkgDirExists pkgDirListing
            portDirListing = some f ∧
        f ∈ pkg_files port_name pkgDirExists pkgDirListing portDirListing ∧
        ∀ g ∈ pkg_files port_name pkgDirExists pkgDirListing portDirListing,
          g ≤ f) := by
  refine ⟨?_, ?_, selected_pkg_file_eq_none _ _ _ _,
    selected_pkg_file_spec _ _ _ _⟩
  · intro he hne
    subst he
    have hemp : (pkgDirListing.filter (artifactMatch port_name)).isEmpty =
        false := by
      rcases hl : pkgDirListing.filter (artifactMatch port_name) with _ | _
      · exact absurd hl hne
      · rfl
    simp [pkg_files, hemp]
  · intro hor
    rcases hor with he | hl
    · subst he
      simp [pkg_files]
    · cases pkgDirExists <;> simp [pkg_files, hl]

theorem update_port_artifact_selection_witness :
    pkg_files "name" true []
        ["name#1.2-3.pkg.tar.gz", "name#1.2-2.pkg.tar.gz"] =
      ["name#1.2-3.pkg.tar.gz", "name#1.2-2.pkg.tar.gz"] ∧
    selected_pkg_file "name" true [] [] = none ∧
    selected_pkg_file "name" true []
        ["name#1.2-3.pkg.tar.gz", "name#1.2-2.pkg.tar.gz"] ≠ none := by
  refine ⟨?_, ?_, ?_⟩
  · have h := (update_port_artifact_selection "name" true []
      ["name#1.2-3.pkg.tar.gz", "name#1.2-2.pkg.tar.gz"]).2.1 (Or.inr rfl)
    rw [h]
    decide
  · exact (update_port_artifact_selection "name" true [] []).2.2.1 rfl
  · obtain ⟨f, hf, -, -⟩ := (update_port_artifact_selection "name" true []
      ["name#1.2-3.pkg.tar.gz", "name#1.2-2.pkg.tar.gz"]).2.2.2 (by decide)
    rw [hf]
    exact fun hcon => Option.noConfusion hcon

/-- C9: the candidate filter demands the `.pkg.tar.gz` ending in addition
to the `<name>#` lead-in (cruxupdater.py:133 and 135): a file matching the
name rule but not that ending is never a candidate and never selected. -/
theorem artifact_requires_archive_suffix (port_name f : String)
    (pkgDirExists : Bool) (pkgDirListing portDirListing : List String)
    (hpre : pyStartsWith f (port_name ++ "#") = true)
    (hsuf : pyEndsWith f ".pkg.tar.gz" = false) :
    f ∉ pkg_files port_name pkgDirExists pkgDirListing portDirListing ∧
    selected_pkg_file port_name pkgDirExists pkgDirListing portDirListing ≠
      some f := by
  have hnm :
      f ∉ pkg_files port_name pkgDirExists pkgDirListing portDirListing := by
    intro hm
    have hmatch :=
      pkg_files_match port_name pkgDirExists pkgDirListing portDirListing f hm
    unfold artifactMatch at hmatch
    rw [hsuf] at hmatch
    simp at hmatch
  refine ⟨hnm, ?_⟩
  intro hsel
  exact hnm
    (selected_pkg_file_mem port_name pkgDirExists pkgDirListing portDirListing
      f hsel)

theorem artifact_requires_archive_suffix_witness :
    "name#1.0-1.tar.xz" ∉
        pkg_files "name" true ["name#1.0-1.tar.xz"] ["name#1.0-1.tar.xz"] ∧
    selected_pkg_file "name" true ["name#1.0-1.tar.xz"]
        ["name#1.0-1.tar.xz"] ≠ some "name#1.0-1.tar.xz" :=
  artifact_requires_archive_suffix "name" "name#1.0-1.tar.xz" true
    ["name#1.0-1.tar.xz"] ["name#1.0-1.tar.xz"] (by decide) (by decide)

theorem ports_after_skip_sublist (outdated : List PortRecord)
    (skip : List String) :
    (ports_after_skip outdated skip).Sublist outdated :=
  List.filter_sublist outdated

theorem ports_after_list_sub_skip (outdated : List PortRecord)
    (skip : List String) (only : Option (List String)) :
    (ports_after_list outdated skip only).Sublist
      (ports_after_skip outdated skip) := by
  cases only with
  | none => exact List.Sublist.refl _
  | some l => exact List.filter_sublist _

theorem ports_after_list_sublist (outdated : List PortRecord)
    (skip : List String) (only : Option (List String)) :
    (ports_after_list outdated skip only).Sublist outdated :=
  (ports_after_list_sub_skip outdated skip only).trans
    (ports_after_skip_sublist outdated skip)

/-- C1 amended: with `max_count = N > 0` and names unique (as the data
model assumes), the loop attempts exactly the first `N` records surviving
the skip/only filters, and every surviving record beyond that prefix is
still listed in the summary but classified as `Failed` — the summary does
not distinguish a truncated, never-attempted record from an attempted,
failed one. -/
theorem main_truncation_summary (outdated : List PortRecord) (f : Filters)
    (attempt : PortRecord → Bool) (N : Nat)
    (hn : f.n = some N) (hpos : 0 < N)
    (hnodup : (outdated.map (fun p => p.port_name)).Nodup) :
    ports_to_update outdated f =
      (ports_after_list outdated f.skip f.only).take N ∧
    ∀ p ∈ (ports_after_list outdated f.skip f.only).drop N,
      (p.port_name, "Failed") ∈
        summary_rows outdated f
          (updated_port_names (ports_to_update outdated f) attempt) := by
  have hN : N ≠ 0 := Nat.pos_iff_ne_zero.mp hpos
  have htake : ports_to_update outdated f =
      (ports_after_list outdated f.skip f.only).take N := by
    unfold ports_to_update num_ports_to_update
    rw [hn]
    simp [hN]
  refine ⟨htake, ?_⟩
  intro p hp
  have hpfl : p ∈ ports_after_list outdated f.skip f.only :=
    (List.drop_sublist N _).subset hp
  have hpout : p ∈ outdated :=
    (ports_after_list_sublist outdated f.skip f.only).subset hpfl
  have hnames :
      ((ports_after_list outdated f.skip f.only).map
        (fun q => q.port_name)).Nodup :=
    ((ports_after_list_sublist outdated f.skip f.only).map _).nodup hnodup
  have hdisj : ∀ a ∈ ((ports_after_list outdated f.skip f.only).take N).map
      (fun q => q.port_name),
      a ∉ ((ports_after_list outdated f.skip f.only).drop N).map
        (fun q => q.port_name) := by
    have happ :
        (((ports_after_list outdated f.skip f.only).take N).map
            (fun q => q.port_name) ++
          ((ports_after_list outdated f.skip f.only).drop N).map
            (fun q => q.port_name)).Nodup := by
      rw [← List.map_append, List.take_append_drop]
      exact hnames
    exact fun a ha hb => (List.nodup_append.mp happ).2.2 ha hb
  have hnupd : p.port_name ∉
      updated_port_names (ports_to_update outdated f) attempt := by
    rw [htake]
    intro hup
    unfold updated_port_names at hup
    rcases List.mem_map.mp hup with ⟨q, hq, hqe⟩
    have hq1 : q ∈ (ports_after_list outdated f.skip f.only).take N :=
      (List.mem_filter.mp hq).1
    exact hdisj p.port_name (List.mem_map.mpr ⟨q, hq1, hqe⟩)
      (List.mem_map.mpr ⟨p, hp, rfl⟩)
  have hpskipmem : p ∈ ports_after_skip outdated f.skip :=
    (ports_after_list_sub_skip outdated f.skip f.only).subset hpfl
  have hskip : p.port_name ∉ f.skip :=
    of_decide_eq_true (List.mem_filter.mp hpskipmem).2
  have honly :
      (match f.only with
        | some l => decide (p.port_name ∉ l)
        | none => false) = false := by
    rcases ho : f.only with _ | l
    · rfl
    · have hpf2 : p ∈ (ports_after_skip outdated f.skip).filter
          (fun port => decide (port.port_name ∈ l)) := by
        have := hpfl
        unfold ports_after_list at this
        rw [ho] at this
        exact this
      have hmem := of_decide_eq_true (List.mem_filter.mp hpf2).2
      simp [hmem]
  have hstat :
      port_status f (updated_port_names (ports_to_update outdated f) attempt)
        p = "Failed" := by
    unfold port_status
    rw [if_neg hskip, honly]
    simp [hnupd]
  unfold summary_rows
  exact List.mem_map.mpr ⟨p, hpout, by rw [hstat]⟩

/-- Five outdated records with distinct names. -/
def out5 : List PortRecord :=
  [⟨"p1", "1", "2"⟩, ⟨"p2", "1", "2"⟩, ⟨"p3", "1", "2"⟩,
   ⟨"p4", "1", "2"⟩, ⟨"p5", "1", "2"⟩]

/-- Filters with `max_count = 2` and no skip/only lists. -/
def filtersN2 : Filters := ⟨some 2, [], none, false⟩

/-- C1 counterexample: with five outdated records, no skip/only filters
and `max_count = 2`, only the first two records are attempted (here both
successfully), yet the three truncated survivors are classified `Failed`
in the summary — not "neither Updated nor Failed" as claimed
(cruxupdater.py:205 marks every unskipped, unlisted name absent from
`updated_ports` as Failed). -/
theorem main_truncation_counterexample :
    ports_to_update out5 filtersN2 = [⟨"p1", "1", "2"⟩, ⟨"p2", "1", "2"⟩] ∧
    summary_rows out5 filtersN2
        (updated_port_names (ports_to_update out5 filtersN2)
          (fun _ => true)) =
      [("p1", "Updated"), ("p2", "Updated"), ("p3", "Failed"),
       ("p4", "Failed"), ("p5", "Failed")] := by
  constructor
  · decide
  · decide

theorem main_truncation_summary_witness :
    ports_to_update out5 filtersN2 =
      (ports_after_list out5 filtersN2.skip filtersN2.only).take 2 ∧
    ("p4", "Failed") ∈
      summary_rows out5 filtersN2
        (updated_port_names (ports_to_update out5 filtersN2)
          (fun _ => true)) := by
  have h := main_truncation_summary out5 filtersN2 (fun _ => true) 2 rfl
    (by decide) (by decide)
  exact ⟨h.1, h.2 ⟨"p4", "1", "2"⟩ (by decide)⟩

end Cruxupdater
